import Mathlib

/-!
Verification of the temporal state-access layer and snapshot reconciliation
engine of the bsc-erigon repository, via a shallow embedding of the Go source
into Lean. Machine unsigned integers are modelled as `Nat` with explicit
reduction modulo `2 ^ 64` at the points where Go's wrap-around arithmetic can
actually overflow. Byte strings are modelled as `List Nat`; Go strings are
modelled as Lean `String`, with the string primitives the source uses
(`strings.HasPrefix`, `strings.Contains`, `strings.Split`,
`strconv.ParseUint`) re-implemented by structural recursion over the
underlying character list so that definitions evaluate on concrete input.
Fallible Go functions returning `(value, error)` pairs are embedded as
`Except String` values.
-/

namespace Erigon

/-- `2 ^ 64`, the modulus of Go's `uint64` arithmetic. -/
def uint64Mod : Nat := 2 ^ 64

/-- `math.MaxUint64`, the initial value of `minToDownload` in
`getMinimumBlocksToDownload`. -/
def uint64Max : Nat := 2 ^ 64 - 1

/-- `math.MaxUint32`, the initial value of `minStateStepToDownload` in
`getMinimumBlocksToDownload`. -/
def uint32Max : Nat := 2 ^ 32 - 1

/-- Wrap-around subtraction of Go `uint64` values (the operands are assumed
to be below `2 ^ 64`, as every Go `uint64` is). -/
def sub64 (a b : Nat) : Nat := (a + uint64Mod - b % uint64Mod) % uint64Mod

/-! ### Go string primitives, by structural recursion over `List Char` -/

/-- `strings.HasPrefix`: the auxiliary list test. -/
def stringStartsWith (s pre : String) : Bool :=
  pre.data.isPrefixOf s.data

/-- Does `sub` occur as a contiguous sublist of the first argument? -/
def listContainsSub (sub : List Char) : List Char → Bool
  | [] => sub.isEmpty
  | c :: rest => sub.isPrefixOf (c :: rest) || listContainsSub sub rest

/-- `strings.Contains`. -/
def stringContains (s sub : String) : Bool :=
  listContainsSub sub.data s.data

/-- Splitting a character list at every occurrence of the separator
character; `cur` is the (reversed) chunk accumulated so far. Mirrors
`strings.Split` for a one-character separator, which is the only way the
source uses it (separators `"."` and `"-"`). -/
def splitOnCharAux (sep : Char) : List Char → List Char → List (List Char)
  | cur, [] => [cur.reverse]
  | cur, c :: rest =>
    if c = sep then cur.reverse :: splitOnCharAux sep [] rest
    else splitOnCharAux sep (c :: cur) rest

/-- `strings.Split(s, sep)` for a one-character separator. -/
def splitOnChar (s : String) (sep : Char) : List (List Char) :=
  splitOnCharAux sep [] s.data

/-- `strconv.ParseUint(s, 10, 64)`: succeeds exactly on a non-empty string of
decimal digits whose value fits in 64 bits (no sign is permitted). -/
def parseUint64 (s : List Char) : Option Nat :=
  if s.isEmpty then none
  else if s.all (fun c => c.isDigit) then
    let v := s.foldl (fun acc c => acc * 10 + (c.toNat - 48)) 0
    if v < uint64Mod then some v else none
  else none

/-! ### Snapshot reconciliation engine (package `snapshotsync`) -/

/-- `isStateHistory`: names of prunable state-history artifacts. -/
def isStateHistory (name : String) : Bool :=
  stringStartsWith name "idx" || stringStartsWith name "history" ||
    stringStartsWith name "accessor"

/-- `isStateSnapshot`: state-history names plus `domain`-prefixed names. -/
def isStateSnapshot (name : String) : Bool :=
  isStateHistory name || stringStartsWith name "domain"

/-- `canSnapshotBePruned`. -/
def canSnapshotBePruned (name : String) : Bool :=
  isStateHistory name || stringContains name "transactions"

/-- `adjustBlockPrune`. The constant `snaptype.Erigon2MergeLimit` is not part
of the supplied sources, so it is passed as the explicit parameter
`erigon2MergeLimit` (its value in the repository is `100000`). -/
def adjustBlockPrune (blocks minBlocksToDownload erigon2MergeLimit : Nat) : Nat :=
  let minBlocksToDownload :=
    if minBlocksToDownload < erigon2MergeLimit then erigon2MergeLimit
    else minBlocksToDownload
  let blocks := if blocks > minBlocksToDownload then minBlocksToDownload else blocks
  blocks - blocks % erigon2MergeLimit

/-- The `to` bound parsed out of a state-artifact file name inside
`buildBlackListForPruning`: the Go code takes `strings.Split(name, ".")[1]`,
splits that on `"-"`, takes element `[1]` and `strconv.ParseUint`s it.
A missing separator makes the Go indexing panic and a malformed number makes
`ParseUint` fail; both abort the surrounding computation and are collapsed
into `none` here. -/
def parseStateTo (name : String) : Option Nat :=
  match (splitOnChar name '.')[1]? with
  | none => none
  | some rangeString =>
    match (splitOnCharAux '-' [] rangeString)[1]? with
    | none => none
    | some toStr => parseUint64 toStr

/-- The loop body of `buildBlackListForPruning`, processing the preverified
entries in order and accumulating the blacklisted names. `parseBlockFileTo`
embeds the external call `snaptype.ParseFileName` on the non-state branch
(`none` models `ok = false`, which the loop skips). -/
def buildBlackListLoop (stepPrune blockPrune : Nat)
    (parseBlockFileTo : String → Option Nat) :
    List String → List String → Except String (List String)
  | [], acc => Except.ok acc
  | name :: rest, acc =>
    if !canSnapshotBePruned name then
      buildBlackListLoop stepPrune blockPrune parseBlockFileTo rest acc
    else if isStateSnapshot name then
      match parseStateTo name with
      | none => Except.error ("cannot parse the to bound of " ++ name)
      | some toBound =>
        if stepPrune < toBound then
          buildBlackListLoop stepPrune blockPrune parseBlockFileTo rest acc
        else
          buildBlackListLoop stepPrune blockPrune parseBlockFileTo rest (acc ++ [name])
    else
      match parseBlockFileTo name with
      | none => buildBlackListLoop stepPrune blockPrune parseBlockFileTo rest acc
      | some resTo =>
        if blockPrune < resTo then
          buildBlackListLoop stepPrune blockPrune parseBlockFileTo rest acc
        else
          buildBlackListLoop stepPrune blockPrune parseBlockFileTo rest (acc ++ [name])

/-- `buildBlackListForPruning`. The preverified catalog is modelled by the
list of its entry names; the produced blacklist (a Go `map[string]struct{}`)
is modelled by the list of blacklisted names. -/
def buildBlackListForPruning (pruneMode : Bool)
    (stepPrune minBlockToDownload blockPrune erigon2MergeLimit : Nat)
    (parseBlockFileTo : String → Option Nat)
    (preverified : List String) : Except String (List String) :=
  if !pruneMode then Except.ok []
  else
    buildBlackListLoop stepPrune
      (adjustBlockPrune blockPrune minBlockToDownload erigon2MergeLimit)
      parseBlockFileTo preverified []

/-- The final consistency check at the end of `WaitForDownloader`: with
`segmentsMax = snapshots.SegmentsMax()` and `firstNonGenesis` the decoded
`rawdbv3.SecondKey(tx, kv.Headers)` probe (`none` when the database holds no
non-genesis key), the fatal gap error is raised exactly when this function
returns `true`. The `+ 1` is Go `uint64` addition, hence the reduction
modulo `2 ^ 64`. -/
def waitForDownloaderGapCheck (segmentsMax : Nat) (firstNonGenesis : Option Nat) : Bool :=
  match firstNonGenesis with
  | none => false
  | some firstNonGenesisBlockNumber =>
    decide ((segmentsMax + 1) % uint64Mod < firstNonGenesisBlockNumber)

/-- One frozen block body as handed to the `IterateFrozenBodies` callback. -/
structure FrozenBody where
  blockNum : Nat
  baseTxNum : Nat
  txAmount : Nat

/-- The `IterateFrozenBodies` callback body of `getMinimumBlocksToDownload`,
as a fold step over the state pair `(minToDownload, minStateStepToDownload)`.
`config3.DefaultStepSize` is not part of the supplied sources and is passed
as the explicit parameter `stepSize` (its value in the repository is
`1562500`). -/
def gmbtdStep (stateTxNum frozenBlocks historyPruneTo stepSize : Nat)
    (st : Nat × Nat) (b : FrozenBody) : Nat × Nat :=
  let minStateStep :=
    if b.blockNum = historyPruneTo then
      if b.baseTxNum < stepSize - 1 then 0
      else sub64 b.baseTxNum (stepSize - 1) / stepSize
    else st.2
  if stateTxNum ≤ b.baseTxNum then (st.1, minStateStep)
  else
    let newMinToDownload := if frozenBlocks > b.blockNum then frozenBlocks - b.blockNum else 0
    (if newMinToDownload < st.1 then newMinToDownload else st.1, minStateStep)

/-- `getMinimumBlocksToDownload`: the sequence of bodies visited by
`blockReader.IterateFrozenBodies` is modelled by the list `bodies`, and
`blockReader.Snapshots().SegmentsMax()` by the parameter `frozenBlocks`.
Returns `(minBlockToDownload, minStateStepToDownload)`. -/
def getMinimumBlocksToDownload (bodies : List FrozenBody)
    (frozenBlocks maxStateStep historyPruneTo stepSize : Nat) : Nat × Nat :=
  let stateTxNum := (maxStateStep * stepSize) % uint64Mod
  let st := bodies.foldl (gmbtdStep stateTxNum frozenBlocks historyPruneTo stepSize)
    (uint64Max, uint32Max)
  (sub64 frozenBlocks st.1, st.2)

/-! ### Domain catalog (package `kv`) -/

/-- Go `type Domain uint16`; the catalog constants below carry the values
`0`–`6` from the source. -/
structure Domain where
  val : Nat
deriving DecidableEq, Repr

def AccountsDomain : Domain := ⟨0⟩
def StorageDomain : Domain := ⟨1⟩
def CodeDomain : Domain := ⟨2⟩
def CommitmentDomain : Domain := ⟨3⟩
def ReceiptDomain : Domain := ⟨4⟩
def RCacheDomain : Domain := ⟨5⟩
def DomainLen : Domain := ⟨6⟩

/-- The `String()` method on `Domain` (the Go `switch` becomes a chain of
equality tests, preserving the case order). -/
def Domain.string (d : Domain) : String :=
  if d = AccountsDomain then "accounts"
  else if d = StorageDomain then "storage"
  else if d = CodeDomain then "code"
  else if d = CommitmentDomain then "commitment"
  else if d = ReceiptDomain then "receipt"
  else if d = RCacheDomain then "rcache"
  else "unknown domain"

/-- `String2Domain`; the Go error return `(Domain(MaxUint16), err)` is
embedded as `Except.error`. -/
def String2Domain (s : String) : Except String Domain :=
  if s = "accounts" then Except.ok AccountsDomain
  else if s = "storage" then Except.ok StorageDomain
  else if s = "code" then Except.ok CodeDomain
  else if s = "commitment" then Except.ok CommitmentDomain
  else if s = "receipt" then Except.ok ReceiptDomain
  else if s = "rcache" then Except.ok RCacheDomain
  else Except.error ("unknown history name: " ++ s)

/-- Go `type InvertedIdx string`. -/
structure InvertedIdx where
  tag : String
deriving DecidableEq, Repr

def AccountsHistoryIdx : InvertedIdx := ⟨"AccountsHistoryIdx"⟩
def StorageHistoryIdx : InvertedIdx := ⟨"StorageHistoryIdx"⟩
def CodeHistoryIdx : InvertedIdx := ⟨"CodeHistoryIdx"⟩
def CommitmentHistoryIdx : InvertedIdx := ⟨"CommitmentHistoryIdx"⟩
def ReceiptHistoryIdx : InvertedIdx := ⟨"ReceiptHistoryIdx"⟩
def RCacheHistoryIdx : InvertedIdx := ⟨"ReceiptCacheHistoryIdx"⟩
def LogTopicIdx : InvertedIdx := ⟨"LogTopicIdx"⟩
def LogAddrIdx : InvertedIdx := ⟨"LogAddrIdx"⟩
def TracesFromIdx : InvertedIdx := ⟨"TracesFromIdx"⟩
def TracesToIdx : InvertedIdx := ⟨"TracesToIdx"⟩

/-- The `String()` method on `InvertedIdx`, case order as in the source. -/
def InvertedIdx.string (idx : InvertedIdx) : String :=
  if idx = AccountsHistoryIdx then "accounts"
  else if idx = StorageHistoryIdx then "storage"
  else if idx = CodeHistoryIdx then "code"
  else if idx = CommitmentHistoryIdx then "commitment"
  else if idx = ReceiptHistoryIdx then "receipt"
  else if idx = RCacheHistoryIdx then "rcache"
  else if idx = LogAddrIdx then "logaddrs"
  else if idx = LogTopicIdx then "logtopics"
  else if idx = TracesFromIdx then "tracesfrom"
  else if idx = TracesToIdx then "tracesto"
  else "unknown index"

/-- `String2InvertedIdx`; the Go error return `("", err)` is embedded as
`Except.error`. -/
def String2InvertedIdx (s : String) : Except String InvertedIdx :=
  if s = "accounts" then Except.ok AccountsHistoryIdx
  else if s = "storage" then Except.ok StorageHistoryIdx
  else if s = "code" then Except.ok CodeHistoryIdx
  else if s = "commitment" then Except.ok CommitmentHistoryIdx
  else if s = "receipt" then Except.ok ReceiptHistoryIdx
  else if s = "rcache" then Except.ok RCacheHistoryIdx
  else if s = "logaddrs" then Except.ok LogAddrIdx
  else if s = "logtopics" then Except.ok LogTopicIdx
  else if s = "tracesfrom" then Except.ok TracesFromIdx
  else if s = "tracesto" then Except.ok TracesToIdx
  else Except.error ("unknown inverted index name: " ++ s)

/-! ### History-aware state reader (package `state`, `history_reader_v3.go`) -/

/-- Byte strings. -/
abbrev Bytes := List Nat

/-- The triple returned by `kv.TemporalTx.GetAsOf`: `(value, found, error)`. -/
structure GetAsOfResult where
  value : Bytes
  found : Bool
  err : Option String
deriving Repr

/-- The temporal transaction handle `kv.TemporalTx`, an external collaborator
of `HistoryReaderV3`; only the two capabilities the reader uses are
modelled. -/
structure TemporalTx where
  getAsOf : Domain → Bytes → Nat → GetAsOfResult
  historyStartFrom : Domain → Nat

/-- `accounts.Account`: the fields the reader observes. -/
structure Account where
  nonce : Nat
  balance : Nat
  codeHash : Bytes
  incarnation : Nat

/-- `HistoryReaderV3`: current transaction number, trace flag, bound temporal
transaction handle and the reusable scratch buffer for composite keys. -/
structure HistoryReaderV3 where
  txNum : Nat
  trace : Bool
  ttx : TemporalTx
  composite : Bytes

/-- `NewHistoryReaderV3` allocates a 52-byte scratch buffer; the `txNum`,
`trace` and handle fields start zeroed (the handle must be set before use, so
it is passed here explicitly). -/
def NewHistoryReaderV3 (ttx : TemporalTx) : HistoryReaderV3 :=
  { txNum := 0, trace := false, ttx := ttx, composite := List.replicate (20 + 32) 0 }

def HistoryReaderV3.SetTxNum (hr : HistoryReaderV3) (txNum : Nat) : HistoryReaderV3 :=
  { hr with txNum := txNum }

def HistoryReaderV3.GetTxNum (hr : HistoryReaderV3) : Nat := hr.txNum

def HistoryReaderV3.SetTrace (hr : HistoryReaderV3) (trace : Bool) : HistoryReaderV3 :=
  { hr with trace := trace }

/-- `StateHistoryStartFrom`: the loop over the three state domains, folding
with the running maximum starting from `0`. -/
def HistoryReaderV3.stateHistoryStartFrom (hr : HistoryReaderV3) : Nat :=
  [AccountsDomain, StorageDomain, CodeDomain].foldl
    (fun earliestTxNum domainName =>
      let domainStartingTxNum := hr.ttx.historyStartFrom domainName
      if domainStartingTxNum > earliestTxNum then domainStartingTxNum
      else earliestTxNum) 0

/-- `ReadAccountData`. `accounts.DeserialiseV3` lives outside the supplied
sources and is passed as the parameter `deserialiseV3`; its Go error return
is wrapped with the operation name as in the source. The trace branch of the
source only prints and is therefore invisible in the returned pair. -/
def HistoryReaderV3.readAccountData (hr : HistoryReaderV3)
    (deserialiseV3 : Bytes → Except String Account) (address : Bytes) :
    Option Account × Option String :=
  let r := hr.ttx.getAsOf AccountsDomain address hr.txNum
  if r.err.isSome || !r.found || r.value.length == 0 then (none, r.err)
  else
    match deserialiseV3 r.value with
    | Except.error e => (none, some ("ReadAccountData: " ++ e))
    | Except.ok a => (some a, none)

/-- `ReadAccountDataForDebug` just delegates to `ReadAccountData`. -/
def HistoryReaderV3.readAccountDataForDebug (hr : HistoryReaderV3)
    (deserialiseV3 : Bytes → Except String Account) (address : Bytes) :
    Option Account × Option String :=
  hr.readAccountData deserialiseV3 address

/-- `ReadAccountStorage`: rebuilds the composite key `address ‖ key` in the
scratch buffer, queries the storage domain, and returns the value and error
(the `found` flag is discarded by the source). The updated reader (with the
overwritten scratch buffer) is returned alongside. -/
def HistoryReaderV3.readAccountStorage (hr : HistoryReaderV3) (address : Bytes)
    (incarnation : Nat) (key : Bytes) : HistoryReaderV3 × Bytes × Option String :=
  let composite := address ++ key
  let hr := { hr with composite := composite }
  let r := hr.ttx.getAsOf StorageDomain composite hr.txNum
  (hr, r.value, r.err)

/-- `ReadAccountCode`: a code-domain lookup keyed by the address alone. -/
def HistoryReaderV3.readAccountCode (hr : HistoryReaderV3) (address : Bytes)
    (incarnation : Nat) : Bytes × Option String :=
  let r := hr.ttx.getAsOf CodeDomain address hr.txNum
  (r.value, r.err)

/-- `ReadAccountCodeSize`: same lookup, returning only the length. -/
def HistoryReaderV3.readAccountCodeSize (hr : HistoryReaderV3) (address : Bytes)
    (incarnation : Nat) : Nat × Option String :=
  let r := hr.ttx.getAsOf CodeDomain address hr.txNum
  (r.value.length, r.err)

/-- `ReadAccountIncarnation`. `accounts.Account.DecodeForStorage` lives
outside the supplied sources and is passed as the parameter
`decodeForStorage`. -/
def HistoryReaderV3.readAccountIncarnation (hr : HistoryReaderV3)
    (decodeForStorage : Bytes → Except String Account) (address : Bytes) :
    Nat × Option String :=
  let r := hr.ttx.getAsOf AccountsDomain address hr.txNum
  if r.err.isSome || !r.found || r.value.length == 0 then (0, r.err)
  else
    match decodeForStorage r.value with
    | Except.error e => (0, some ("ReadAccountIncarnation: " ++ e))
    | Except.ok a =>
      if a.incarnation = 0 then (0, none)
      else (a.incarnation - 1, none)

/-! ### Helper lemmas -/

/-- The first clamp of `adjustBlockPrune` is the maximum with the merge
limit. -/
lemma adjustBlockPrune_clamp (minB L : Nat) :
    (if minB < L then L else minB) = max minB L := by
  split <;> omega

/-- The second clamp of `adjustBlockPrune` is the minimum with the clamped
bound. -/
lemma adjustBlockPrune_min (blocks m : Nat) :
    (if blocks > m then m else blocks) = min blocks m := by
  split <;> omega

/-- Folding `gmbtdStep` over bodies whose `baseTxNum` all reach `stateTxNum`
never changes the `minToDownload` component of the state. -/
lemma gmbtd_foldl_fst (stateTxNum frozenBlocks historyPruneTo stepSize : Nat) :
    ∀ (bodies : List FrozenBody) (st : Nat × Nat),
      (∀ b ∈ bodies, stateTxNum ≤ b.baseTxNum) →
      (bodies.foldl (gmbtdStep stateTxNum frozenBlocks historyPruneTo stepSize) st).1 = st.1
  | [], _, _ => rfl
  | b :: rest, st, h => by
    have hb : stateTxNum ≤ b.baseTxNum := h b (by simp)
    have hrest := gmbtd_foldl_fst stateTxNum frozenBlocks historyPruneTo stepSize rest
      (gmbtdStep stateTxNum frozenBlocks historyPruneTo stepSize st b)
      (fun x hx => h x (by simp [hx]))
    rw [List.foldl_cons, hrest]
    unfold gmbtdStep
    simp [hb]

/-- Folding `gmbtdStep` over bodies none of which sits at the
`historyPruneTo` block never changes the `minStateStepToDownload` component
of the state. -/
lemma gmbtd_foldl_snd (stateTxNum frozenBlocks historyPruneTo stepSize : Nat) :
    ∀ (bodies : List FrozenBody) (st : Nat × Nat),
      (∀ b ∈ bodies, b.blockNum ≠ historyPruneTo) →
      (bodies.foldl (gmbtdStep stateTxNum frozenBlocks historyPruneTo stepSize) st).2 = st.2
  | [], _, _ => rfl
  | b :: rest, st, h => by
    have hb : b.blockNum ≠ historyPruneTo := h b (by simp)
    have hrest := gmbtd_foldl_snd stateTxNum frozenBlocks historyPruneTo stepSize rest
      (gmbtdStep stateTxNum frozenBlocks historyPruneTo stepSize st b)
      (fun x hx => h x (by simp [hx]))
    rw [List.foldl_cons, hrest]
    unfold gmbtdStep
    by_cases hle : stateTxNum ≤ b.baseTxNum <;> simp [hb, hle]

/-! ### Claim theorems -/

/-- C9: `adjustBlockPrune blocks minBlocksToDownload` equals
`min blocks (max minBlocksToDownload L)` rounded down to a multiple of the
merge limit `L`; the result is an exact multiple of `L` and never exceeds the
clamped minimum-blocks-to-download bound `max minBlocksToDownload L`. -/
theorem adjustBlockPrune_spec (blocks minB L : Nat) (hL : 0 < L) :
    adjustBlockPrune blocks minB L = L * (min blocks (max minB L) / L) ∧
    adjustBlockPrune blocks minB L % L = 0 ∧
    adjustBlockPrune blocks minB L ≤ max minB L := by
  simp only [adjustBlockPrune]
  rw [adjustBlockPrune_clamp, adjustBlockPrune_min]
  have hdm := Nat.div_add_mod (min blocks (max minB L)) L
  have hmle : min blocks (max minB L) ≤ max minB L := Nat.min_le_right _ _
  refine ⟨by omega, ?_, by omega⟩
  have heq : min blocks (max minB L) - min blocks (max minB L) % L
      = L * (min blocks (max minB L) / L) := by omega
  rw [heq]
  exact Nat.mul_mod_right _ _

/-- C9 witness: at the repository's merge limit `100000`, pruning request
`250000` with `minBlocksToDownload = 70000` is clamped to the merge limit
and rounded to `100000`. -/
theorem adjustBlockPrune_spec_witness :
    adjustBlockPrune 250000 70000 100000 = 100000 * (min 250000 (max 70000 100000) / 100000) ∧
    adjustBlockPrune 250000 70000 100000 % 100000 = 0 ∧
    adjustBlockPrune 250000 70000 100000 ≤ max 70000 100000 :=
  adjustBlockPrune_spec 250000 70000 100000 (by decide)

/-- C2: the final consistency check of `WaitForDownloader` raises the gap
error exactly when the database holds a first non-genesis block number `n`
with `SegmentsMax() + 1 < n`; with no non-genesis key the check passes, and
first non-genesis block `2000000` against snapshot coverage ending at
`1999998` raises the error. -/
theorem waitForDownloaderGapCheck_spec (segmentsMax n : Nat)
    (h : segmentsMax + 1 < uint64Mod) :
    (waitForDownloaderGapCheck segmentsMax (some n) = true ↔ segmentsMax + 1 < n) ∧
    waitForDownloaderGapCheck segmentsMax none = false ∧
    waitForDownloaderGapCheck 1999998 (some 2000000) = true := by
  unfold waitForDownloaderGapCheck
  refine ⟨?_, rfl, by decide⟩
  rw [Nat.mod_eq_of_lt h]
  simp

/-- C2 witness: scenario D concretely, with every hypothesis discharged. -/
theorem waitForDownloaderGapCheck_spec_witness :
    (waitForDownloaderGapCheck 1999998 (some 2000000) = true ↔ 1999998 + 1 < 2000000) ∧
    waitForDownloaderGapCheck 1999998 none = false ∧
    waitForDownloaderGapCheck 1999998 (some 2000000) = true :=
  waitForDownloaderGapCheck_spec 1999998 2000000 (by decide)

/-- C10: when `IterateFrozenBodies` visits no body with `baseTxNum` below
`maxStateStep * DefaultStepSize` (computed in wrap-around `uint64`
arithmetic), `minToDownload` keeps its initial value `2 ^ 64 - 1` and the
returned `minBlockToDownload` is `frozenBlocks - (2 ^ 64 - 1)` in wrap-around
`uint64` arithmetic, i.e. `(frozenBlocks + 1) % 2 ^ 64`; and when no visited
body has `blockNum = historyPruneTo`, the returned `minStateStepToDownload`
keeps its initial value `2 ^ 32 - 1`. -/
theorem getMinimumBlocksToDownload_defaults (bodies : List FrozenBody)
    (frozenBlocks maxStateStep historyPruneTo stepSize : Nat) :
    ((∀ b ∈ bodies, (maxStateStep * stepSize) % uint64Mod ≤ b.baseTxNum) →
      (getMinimumBlocksToDownload bodies frozenBlocks maxStateStep historyPruneTo stepSize).1
        = (frozenBlocks + 1) % uint64Mod) ∧
    ((∀ b ∈ bodies, b.blockNum ≠ historyPruneTo) →
      (getMinimumBlocksToDownload bodies frozenBlocks maxStateStep historyPruneTo stepSize).2
        = 2 ^ 32 - 1) := by
  constructor
  · intro h
    simp only [getMinimumBlocksToDownload]
    rw [gmbtd_foldl_fst _ _ _ _ bodies _ h]
    show sub64 frozenBlocks uint64Max = _
    unfold sub64 uint64Max uint64Mod
    have e1 : (2 ^ 64 - 1) % 2 ^ 64 = 2 ^ 64 - 1 := Nat.mod_eq_of_lt (by omega)
    have e2 : frozenBlocks + 2 ^ 64 - (2 ^ 64 - 1) = frozenBlocks + 1 := by omega
    rw [e1, e2]
  · intro h
    simp only [getMinimumBlocksToDownload]
    rw [gmbtd_foldl_snd _ _ _ _ bodies _ h]
    rfl

/-- C10 witness: a single frozen body at block `5` with `baseTxNum = 1000`,
`frozenBlocks = 100`, `maxStateStep = 0` and `historyPruneTo = 7`; both
hypotheses hold and the function returns `(101, 2 ^ 32 - 1)`. -/
theorem getMinimumBlocksToDownload_defaults_witness :
    (getMinimumBlocksToDownload [⟨5, 1000, 10⟩] 100 0 7 1562500).1 = 101 ∧
    (getMinimumBlocksToDownload [⟨5, 1000, 10⟩] 100 0 7 1562500).2 = 4294967295 := by
  have h := getMinimumBlocksToDownload_defaults [⟨5, 1000, 10⟩] 100 0 7 1562500
  refine ⟨?_, ?_⟩
  · rw [h.1 (by decide)]; decide
  · rw [h.2 (by decide)]; decide

/-- A temporal handle on which the three state domains have history starting
at `100`, `50` and `80` respectively, for the concrete instance of C4. -/
def exampleHistoryTtx : TemporalTx :=
  { getAsOf := fun _ _ _ => { value := [], found := false, err := none },
    historyStartFrom := fun d =>
      if d = AccountsDomain then 100
      else if d = StorageDomain then 50
      else if d = CodeDomain then 80
      else 0 }

/-- C4: `StateHistoryStartFrom` returns exactly the maximum of
`HistoryStartFrom` over the Accounts, Storage and Code domains; with the
three domains starting at `100`, `50` and `80` it returns `100`. -/
theorem stateHistoryStartFrom_spec (hr : HistoryReaderV3) :
    hr.stateHistoryStartFrom =
      max (hr.ttx.historyStartFrom AccountsDomain)
        (max (hr.ttx.historyStartFrom StorageDomain)
          (hr.ttx.historyStartFrom CodeDomain)) ∧
    HistoryReaderV3.stateHistoryStartFrom
      { txNum := 0, trace := false, ttx := exampleHistoryTtx, composite := [] } = 100 := by
  constructor
  · simp only [HistoryReaderV3.stateHistoryStartFrom, List.foldl_cons, List.foldl_nil]
    split_ifs <;> omega
  · decide

/-- C7: the trace flag changes no returned value and no returned error of
any of the five read operations — two readers differing only in the trace
flag produce equal results for `ReadAccountData`, `ReadAccountStorage`,
`ReadAccountCode`, `ReadAccountCodeSize` and `ReadAccountIncarnation` (for
`ReadAccountStorage`, the value/error components are compared; the returned
reader differs exactly in the trace field itself). -/
theorem trace_flag_no_effect (ttx : TemporalTx) (txNum : Nat) (composite : Bytes)
    (t1 t2 : Bool) (deserialiseV3 decodeForStorage : Bytes → Except String Account)
    (address key : Bytes) (incarnation : Nat) :
    (HistoryReaderV3.readAccountData
        { txNum := txNum, trace := t1, ttx := ttx, composite := composite }
        deserialiseV3 address =
      HistoryReaderV3.readAccountData
        { txNum := txNum, trace := t2, ttx := ttx, composite := composite }
        deserialiseV3 address) ∧
    ((HistoryReaderV3.readAccountStorage
        { txNum := txNum, trace := t1, ttx := ttx, composite := composite }
        address incarnation key).2 =
      (HistoryReaderV3.readAccountStorage
        { txNum := txNum, trace := t2, ttx := ttx, composite := composite }
        address incarnation key).2) ∧
    (HistoryReaderV3.readAccountCode
        { txNum := txNum, trace := t1, ttx := ttx, composite := composite }
        address incarnation =
      HistoryReaderV3.readAccountCode
        { txNum := txNum, trace := t2, ttx := ttx, composite := composite }
        address incarnation) ∧
    (HistoryReaderV3.readAccountCodeSize
        { txNum := txNum, trace := t1, ttx := ttx, composite := composite }
        address incarnation =
      HistoryReaderV3.readAccountCodeSize
        { txNum := txNum, trace := t2, ttx := ttx, composite := composite }
        address incarnation) ∧
    (HistoryReaderV3.readAccountIncarnation
        { txNum := txNum, trace := t1, ttx := ttx, composite := composite }
        decodeForStorage address =
      HistoryReaderV3.readAccountIncarnation
        { txNum := txNum, trace := t2, ttx := ttx, composite := composite }
        decodeForStorage address) :=
  ⟨rfl, rfl, rfl, rfl, rfl⟩

/-- C6: `ReadAccountStorage` returns exactly the value and error components
of `GetAsOf(Storage, address ‖ slotKey, txNum)` on the composite key built
from the 20-byte address and the 32-byte slot key; the incarnation argument
has no effect, and the scratch buffer of the returned reader holds the
rebuilt composite key. -/
theorem readAccountStorage_spec (ttx : TemporalTx) (txNum : Nat) (trace : Bool)
    (composite address key : Bytes) (incarnation incarnation' : Nat)
    (h20 : address.length = 20) (h32 : key.length = 32) :
    HistoryReaderV3.readAccountStorage
        { txNum := txNum, trace := trace, ttx := ttx, composite := composite }
        address incarnation key =
      ({ txNum := txNum, trace := trace, ttx := ttx, composite := address ++ key },
        (ttx.getAsOf StorageDomain (address ++ key) txNum).value,
        (ttx.getAsOf StorageDomain (address ++ key) txNum).err) ∧
    HistoryReaderV3.readAccountStorage
        { txNum := txNum, trace := trace, ttx := ttx, composite := composite }
        address incarnation key =
      HistoryReaderV3.readAccountStorage
        { txNum := txNum, trace := trace, ttx := ttx, composite := composite }
        address incarnation' key :=
  ⟨rfl, rfl⟩

/-- A storage-echoing temporal handle for the witness of C6. -/
def exampleStorageTtx : TemporalTx :=
  { getAsOf := fun _ k _ => { value := k, found := true, err := none },
    historyStartFrom := fun _ => 0 }

/-- C6 witness: on a concrete 20-byte address and 32-byte slot key the
composite key is the concatenation, and incarnations `5` and `9` give the
same result. -/
theorem readAccountStorage_spec_witness :
    HistoryReaderV3.readAccountStorage
        { txNum := 0, trace := false, ttx := exampleStorageTtx, composite := [] }
        (List.replicate 20 1) 5 (List.replicate 32 2) =
      ({ txNum := 0, trace := false, ttx := exampleStorageTtx,
          composite := List.replicate 20 1 ++ List.replicate 32 2 },
        (exampleStorageTtx.getAsOf StorageDomain
          (List.replicate 20 1 ++ List.replicate 32 2) 0).value,
        (exampleStorageTtx.getAsOf StorageDomain
          (List.replicate 20 1 ++ List.replicate 32 2) 0).err) ∧
    HistoryReaderV3.readAccountStorage
        { txNum := 0, trace := false, ttx := exampleStorageTtx, composite := [] }
        (List.replicate 20 1) 5 (List.replicate 32 2) =
      HistoryReaderV3.readAccountStorage
        { txNum := 0, trace := false, ttx := exampleStorageTtx, composite := [] }
        (List.replicate 20 1) 9 (List.replicate 32 2) :=
  readAccountStorage_spec exampleStorageTtx 0 false [] (List.replicate 20 1)
    (List.replicate 32 2) 5 9 (by simp) (by simp)

/-- C5: `ReadAccountIncarnation` returns `0` (without error) when the
account record at the reader's transaction number is absent, empty, or
decodes with stored incarnation `0`, and returns the stored incarnation
minus one otherwise. -/
theorem readAccountIncarnation_spec (ttx : TemporalTx) (txNum : Nat) (trace : Bool)
    (composite address : Bytes) (decodeForStorage : Bytes → Except String Account)
    (r : GetAsOfResult) (hget : ttx.getAsOf AccountsDomain address txNum = r)
    (herr : r.err = none) :
    ((r.found = false ∨ r.value = []) →
      HistoryReaderV3.readAccountIncarnation
        { txNum := txNum, trace := trace, ttx := ttx, composite := composite }
        decodeForStorage address = (0, none)) ∧
    (∀ a : Account, r.found = true → r.value ≠ [] →
      decodeForStorage r.value = Except.ok a →
      HistoryReaderV3.readAccountIncarnation
        { txNum := txNum, trace := trace, ttx := ttx, composite := composite }
        decodeForStorage address =
        (if a.incarnation = 0 then 0 else a.incarnation - 1, none)) := by
  constructor
  · intro habs
    simp only [HistoryReaderV3.readAccountIncarnation, hget, herr]
    rcases habs with hf | hv
    · simp [hf]
    · simp [hv]
  · intro a hfound hne hdec
    have hlen : (r.value.length == 0) = false := by
      simpa [List.length_eq_zero] using hne
    by_cases hinc : a.incarnation = 0 <;>
      simp [HistoryReaderV3.readAccountIncarnation, hget, herr, hfound, hdec, hlen, hinc]

/-- A temporal handle whose account record decodes with stored incarnation
`3`, for the witness of C5. -/
def exampleIncarnationTtx : TemporalTx :=
  { getAsOf := fun _ _ _ => { value := [1], found := true, err := none },
    historyStartFrom := fun _ => 0 }

/-- Decoder returning an account with stored incarnation `3`, for the
witness of C5. -/
def exampleDecodeIncarnation3 : Bytes → Except String Account :=
  fun _ => Except.ok { nonce := 0, balance := 0, codeHash := [], incarnation := 3 }

/-- C5 witness: a record with stored incarnation `3` reads back as `2`. -/
theorem readAccountIncarnation_spec_witness :
    HistoryReaderV3.readAccountIncarnation
      { txNum := 0, trace := false, ttx := exampleIncarnationTtx, composite := [] }
      exampleDecodeIncarnation3 [] = (2, none) := by
  have h := (readAccountIncarnation_spec exampleIncarnationTtx 0 false [] []
    exampleDecodeIncarnation3 { value := [1], found := true, err := none }
    rfl rfl).2 { nonce := 0, balance := 0, codeHash := [], incarnation := 3 }
    rfl (by simp) rfl
  simpa using h

/-- C8: the domain and inverted-index name mappings round-trip on every
valid tag, and both `String2Domain` and `String2InvertedIdx` return an error
value (never a panic — the embedding is a total function) on every string
outside the canonical names. -/
theorem string2Domain_roundtrip :
    (∀ d ∈ [AccountsDomain, StorageDomain, CodeDomain, CommitmentDomain,
        ReceiptDomain, RCacheDomain],
      String2Domain (Domain.string d) = Except.ok d) ∧
    (∀ i ∈ [AccountsHistoryIdx, StorageHistoryIdx, CodeHistoryIdx,
        CommitmentHistoryIdx, ReceiptHistoryIdx, RCacheHistoryIdx,
        LogTopicIdx, LogAddrIdx, TracesFromIdx, TracesToIdx],
      String2InvertedIdx (InvertedIdx.string i) = Except.ok i) ∧
    (∀ s : String,
      s ∉ ["accounts", "storage", "code", "commitment", "receipt", "rcache"] →
      ∃ e, String2Domain s = Except.error e) ∧
    (∀ s : String,
      s ∉ ["accounts", "storage", "code", "commitment", "receipt", "rcache",
        "logaddrs", "logtopics", "tracesfrom", "tracesto"] →
      ∃ e, String2InvertedIdx s = Except.error e) := by
  refine ⟨?_, ?_, ?_, ?_⟩
  · intro d hd
    fin_cases hd <;> rfl
  · intro i hi
    fin_cases hi <;> rfl
  · intro s hs
    have h' : ¬(s = "accounts" ∨ s = "storage" ∨ s = "code" ∨ s = "commitment" ∨
        s = "receipt" ∨ s = "rcache") := by simpa using hs
    push_neg at h'
    obtain ⟨n1, n2, n3, n4, n5, n6⟩ := h'
    unfold String2Domain
    rw [if_neg n1, if_neg n2, if_neg n3, if_neg n4, if_neg n5, if_neg n6]
    exact ⟨_, rfl⟩
  · intro s hs
    have h' : ¬(s = "accounts" ∨ s = "storage" ∨ s = "code" ∨ s = "commitment" ∨
        s = "receipt" ∨ s = "rcache" ∨ s = "logaddrs" ∨ s = "logtopics" ∨
        s = "tracesfrom" ∨ s = "tracesto") := by simpa using hs
    push_neg at h'
    obtain ⟨n1, n2, n3, n4, n5, n6, n7, n8, n9, n10⟩ := h'
    unfold String2InvertedIdx
    rw [if_neg n1, if_neg n2, if_neg n3, if_neg n4, if_neg n5, if_neg n6, if_neg n7,
      if_neg n8, if_neg n9, if_neg n10]
    exact ⟨_, rfl⟩

/-- C8 witness: a valid domain tag and a valid index tag round-trip, and a
non-canonical string is rejected by each mapping with an error. -/
theorem string2Domain_roundtrip_witness :
    String2Domain (Domain.string RCacheDomain) = Except.ok RCacheDomain ∧
    String2InvertedIdx (InvertedIdx.string LogAddrIdx) = Except.ok LogAddrIdx ∧
    (∃ e, String2Domain "domain.0-100.kv" = Except.error e) ∧
    (∃ e, String2InvertedIdx "domain.0-100.kv" = Except.error e) :=
  ⟨string2Domain_roundtrip.1 RCacheDomain (by simp),
    string2Domain_roundtrip.2.1 LogAddrIdx (by simp),
    string2Domain_roundtrip.2.2.1 "domain.0-100.kv" (by simp),
    string2Domain_roundtrip.2.2.2 "domain.0-100.kv" (by simp)⟩

/-- C1 counterexample: the claim asserts that the `domain`-prefixed state
catalog entry `domain.0-100.kv` is blacklisted when the retention step
threshold is `stepPrune = 150 ≥ to = 100`; in fact `buildBlackListForPruning`
skips every entry failing `canSnapshotBePruned` (the explicit "Don't prune
unprunable files" guard), and `domain.0-100.kv` neither carries an
`idx`/`history`/`accessor` state-history name nor contains "transactions",
so with pruning enabled and `stepPrune = 150` the produced blacklist is
empty — the file is not blacklisted. -/
theorem buildBlackListForPruning_domain_counterexample :
    buildBlackListForPruning true 150 0 0 100000 (fun _ => none) ["domain.0-100.kv"]
      = Except.ok [] := rfl

/-- C1 (amended): for a preverified entry classified both as a state
artifact and as prunable (`idx`/`history`/`accessor`-prefixed or containing
"transactions"), with pruning enabled, `buildBlackListForPruning` blacklists
it exactly when `stepPrune ≥ to`; an entry that is not prunable — in
particular a plain `domain`-prefixed file such as `domain.0-100.kv` — is
never blacklisted, whatever the threshold. -/
theorem buildBlackListForPruning_state_spec
    (stepPrune minBlockToDownload blockPrune mergeLimit toBound : Nat)
    (parseBlockFileTo : String → Option Nat) (name : String)
    (hp : canSnapshotBePruned name = true) (hs : isStateSnapshot name = true)
    (ht : parseStateTo name = some toBound) :
    buildBlackListForPruning true stepPrune minBlockToDownload blockPrune mergeLimit
        parseBlockFileTo [name]
      = Except.ok (if stepPrune < toBound then [] else [name]) ∧
    (∀ name2 : String, canSnapshotBePruned name2 = false →
      buildBlackListForPruning true stepPrune minBlockToDownload blockPrune mergeLimit
          parseBlockFileTo [name2] = Except.ok []) ∧
    buildBlackListForPruning true 50 minBlockToDownload blockPrune mergeLimit
        parseBlockFileTo ["domain.0-100.kv"] = Except.ok [] ∧
    buildBlackListForPruning true 150 minBlockToDownload blockPrune mergeLimit
        parseBlockFileTo ["domain.0-100.kv"] = Except.ok [] := by
  refine ⟨?_, ?_, ?_, ?_⟩
  · simp only [buildBlackListForPruning, buildBlackListLoop, hp, hs, ht,
      Bool.not_true, Bool.false_eq_true, if_false, if_true]
    split <;> rfl
  · intro name2 h2
    simp [buildBlackListForPruning, buildBlackListLoop, h2]
  · have h2 : canSnapshotBePruned "domain.0-100.kv" = false := rfl
    simp [buildBlackListForPruning, buildBlackListLoop, h2]
  · have h2 : canSnapshotBePruned "domain.0-100.kv" = false := rfl
    simp [buildBlackListForPruning, buildBlackListLoop, h2]

/-- C1 witness: the prunable state-history entry `idx.0-64.ef` (`to = 64`)
is blacklisted at `stepPrune = 150 ≥ 64`, and `domain.0-100.kv` is kept at
both thresholds. -/
theorem buildBlackListForPruning_state_spec_witness :
    buildBlackListForPruning true 150 0 0 100000 (fun _ => none) ["idx.0-64.ef"]
      = Except.ok ["idx.0-64.ef"] ∧
    buildBlackListForPruning true 50 0 0 100000 (fun _ => none) ["domain.0-100.kv"]
      = Except.ok [] ∧
    buildBlackListForPruning true 150 0 0 100000 (fun _ => none) ["domain.0-100.kv"]
      = Except.ok [] := by
  have h := buildBlackListForPruning_state_spec 150 0 0 100000 64 (fun _ => none)
    "idx.0-64.ef" rfl rfl rfl
  exact ⟨by simpa using h.1, h.2.2.1, h.2.2.2⟩

end Erigon
